import Mathlib

/-!
Shallow embedding of the batch video-converter (Electron main process in
`src/types.ts`, renderer `App` component, preload bridge), covering the
Batch Queue, Command Resolver, Job Encoder Invoker outcome rule, Progress
Parser and Orchestrator run loop, together with theorems settling the
specification claims about them.

Conventions of the embedding:
* JavaScript numbers that can only hold exact decimal values in the code
  paths under study are modelled as `Rat`; the result of `parseFloat` is an
  `Option Rat`, `none` standing for `NaN`.
* Strings are processed as `List Char` where character-level work is done
  (split, trim, substring search), mirroring the JavaScript string methods
  used by the source.
* Promise settlement of the `process-video` IPC handler is modelled by
  `Settled`: `resolve` for a fulfilled promise, `reject` for a rejected
  one; the IPC bridge is modelled as delivering the settlement value to
  the renderer unchanged.
* Nondeterministic inputs of the real system (subprocess exit codes and
  stderr, probe outcomes of candidate runtime commands, the successive
  values of the id expression) are passed in as explicit
  function parameters, so every definition is executable.
-/

/-- Lifecycle status of a job, from the `VideoItem` union type in `src/types.ts`. -/
inductive Status
  | pending
  | processing
  | completed
  | error
deriving DecidableEq, Repr

/-- The `VideoItem` record of `src/types.ts`.  `progress` is a JavaScript
number; `errorMsg` is the optional error field. -/
structure VideoItem where
  id : String
  filepath : String
  filename : String
  caption : String
  status : Status
  duration : Rat
  width : Rat
  height : Rat
  progress : Rat
  errorMsg : Option String
deriving DecidableEq, Repr

/- ------------------------------------------------------------------
   Character-level string helpers modelling the JavaScript operations
   used by the source (`split`, `includes`, `match`, `trim`, `parseFloat`).
   ------------------------------------------------------------------ -/

/-- Model of `String.prototype.split` with a single-character class
separator: splits fully, keeping empty segments, so that
`"a\nb\n"` splits into `["a", "b", ""]` exactly as in JavaScript. -/
def splitOnPred (p : Char → Bool) : List Char → List (List Char)
  | [] => [[]]
  | c :: rest =>
    if p c then [] :: splitOnPred p rest
    else
      match splitOnPred p rest with
      | l :: ls => (c :: l) :: ls
      | [] => [[c]]

/-- Model of splitting a chunk at every newline, as the stdout handler does. -/
def splitLines (cs : List Char) : List (List Char) :=
  splitOnPred (fun c => c = '\n') cs

/-- Model of `String.prototype.includes`: `pat` occurs contiguously in `cs`. -/
def listContains (cs pat : List Char) : Bool :=
  match cs with
  | [] => pat.isEmpty
  | c :: rest => pat.isPrefixOf (c :: rest) || listContains rest pat

/-- Characters matched by the regular-expression class `[\d.]`. -/
def isFloatChar (c : Char) : Bool :=
  c.isDigit || c = '.'

/-- Numeric value of a digit string (most significant first). -/
def digitsVal (cs : List Char) : Nat :=
  cs.foldl (fun n c => 10 * n + (c.toNat - 48)) 0

/-- Model of JavaScript `parseFloat` applied to a string drawn from the
class `[\d.]+`: the longest valid decimal prefix is taken; `none` models
`NaN` when no valid prefix exists (for example `".."`). -/
def parseFloatQ (cs : List Char) : Option Rat :=
  let ip := cs.takeWhile Char.isDigit
  match cs.dropWhile Char.isDigit with
  | '.' :: rest2 =>
    let fp := rest2.takeWhile Char.isDigit
    if ip.isEmpty && fp.isEmpty then none
    else some (mkRat (digitsVal ip * 10 ^ fp.length + digitsVal fp) (10 ^ fp.length))
  | _ => if ip.isEmpty then none else some (mkRat (digitsVal ip) 1)

/-- The literal part of the regular expression `/PROGRESS: ([\d.]+)/`. -/
def progressMarker : List Char := "PROGRESS: ".data

/-- Attempts the regular expression `/PROGRESS: ([\d.]+)/` anchored at the
start of `cs`, returning the captured group. -/
def captureAt (cs : List Char) : Option (List Char) :=
  if progressMarker.isPrefixOf cs then
    let digits := (cs.drop progressMarker.length).takeWhile isFloatChar
    if digits.isEmpty then none else some digits
  else none

/-- Model of `line.match(/PROGRESS: ([\d.]+)/)`: the first position at which
the pattern matches yields the captured group, scanning left to right as a
regular-expression engine does. -/
def progressCapture : List Char → Option (List Char)
  | [] => none
  | c :: rest =>
    match captureAt (c :: rest) with
    | some d => some d
    | none => progressCapture rest

/- ------------------------------------------------------------------
   Progress Parser: the stdout data-event handler of the
   `process-video` IPC handler in `src/types.ts`.  Each data chunk is
   split on newlines ON ITS OWN (the accumulated `stdout` variable is
   used only for logging, not for parsing), and every line of the chunk
   that contains `PROGRESS:` and matches the regular expression produces
   one progress event carrying the `parseFloat` of the captured group.
   ------------------------------------------------------------------ -/

/-- Progress event produced by one line of a stdout chunk, if any.  The
payload is the `parseFloat` result (`none` modelling `NaN`). -/
def lineEvent (line : List Char) : Option (Option Rat) :=
  if listContains line "PROGRESS:".data then
    match progressCapture line with
    | some cap => some (parseFloatQ cap)
    | none => none
  else none

/-- Events emitted while handling one `data` chunk: the chunk is split on
newlines and each line is tested independently, exactly as the source
handler does. -/
def chunkEvents (chunk : String) : List (Option Rat) :=
  (splitLines chunk.data).filterMap lineEvent

/-- Events emitted over a whole sequence of stdout chunks.  The source
handler keeps no parsing state between chunks, so the events of the stream
are the concatenation of the per-chunk events. -/
def streamEvents (chunks : List String) : List (Option Rat) :=
  (chunks.map chunkEvents).flatten

/- ------------------------------------------------------------------
   Command Resolver: `findPythonCommand` in `src/types.ts`.  Each
   candidate is probed by spawning `cmd --version`; an `error` event or a
   nonzero close code moves on to the next candidate, a close code of 0
   resolves with that candidate.  When the candidate list is exhausted the
   promise rejects with the fixed user-actionable message.
   ------------------------------------------------------------------ -/

/-- Outcome of probing one candidate command with `--version`: either the
spawn itself fails (the `error` event) or the probe process exits with a
code. -/
inductive ProbeOutcome
  | launchError
  | exited (code : Int)
deriving DecidableEq, Repr

/-- The rejection message of `findPythonCommand` (`\x27` is the apostrophe
of the source string). -/
def pythonNotFoundMsg : String :=
  "Python not found. Please install Python and make sure it\x27s in your PATH."

/-- The hardcoded candidate list of `findPythonCommand`. -/
def pythonCommands : List String := ["python", "python3", "py"]

/-- The `tryNext` recursion of `findPythonCommand`, over an arbitrary
candidate list and probe behaviour.  The first component is the settled
value of the promise; the second instruments the recursion with the list
of candidates actually probed, in order, so that theorems can speak about
which candidates were attempted. -/
def tryNextT (probe : String → ProbeOutcome) :
    List String → Except String String × List String
  | [] => (.error pythonNotFoundMsg, [])
  | cmd :: rest =>
    if probe cmd = .exited 0 then (.ok cmd, [cmd])
    else
      let r := tryNextT probe rest
      (r.1, cmd :: r.2)

/-- The resolver result of `findPythonCommand` for the hardcoded candidate
list: `Except.ok cmd` models the promise resolving with `cmd`,
`Except.error msg` models rejection. -/
def findPythonCommand (probe : String → ProbeOutcome) : Except String String :=
  (tryNextT probe pythonCommands).1

/- ------------------------------------------------------------------
   Job Encoder Invoker: the `process-video` IPC handler.  A promise either
   resolves or rejects with a `{ success, error }` value; the close
   handler decides the outcome from the exit code and the accumulated
   stderr text.
   ------------------------------------------------------------------ -/

/-- The `{ success: boolean, error?: string }` value carried by the
settlement of the `process-video` promise. -/
structure ProcessResult where
  success : Bool
  error : Option String
deriving DecidableEq, Repr

/-- Settlement of a JavaScript promise: fulfilled (`resolve`) or rejected
(`reject`). -/
inductive Settled (α : Type) where
  | resolve (value : α)
  | reject (value : α)
deriving DecidableEq, Repr

/-- Textual form of the exit code in the synthesized message; `none`
models a `null` code for a signal-terminated process. -/
def codeText (code : Option Int) : String :=
  match code with
  | some n => toString n
  | none => "null"

/-- The close-event handler of `process-video`: exit code 0
resolves with success; otherwise the promise rejects with the stderr text
when it is non-empty (JavaScript `stderr || ...`), else with a synthesized
message containing the exit code. -/
def closeOutcome (code : Option Int) (stderr : String) : Settled ProcessResult :=
  if code = some 0 then .resolve ⟨true, none⟩
  else
    .reject ⟨false, some (if stderr = "" then
      "Process exited with code " ++ codeText code else stderr)⟩

/-- Environment of one orchestrator run: the probe behaviour of candidate
runtime commands, and per input path the exit code and captured stderr of
the encoder subprocess that would be spawned for that path. -/
structure RunEnv where
  probe : String → ProbeOutcome
  exitCode : String → Option Int
  stderrOf : String → String

/-- The `process-video` IPC handler.  When command resolution fails, the
handler RETURNS `{ success: false, error }` — the promise resolves, it
does not reject — and no encoder subprocess is spawned.  Otherwise the
encoder is spawned on the input path and the close handler settles the
promise.  The second component lists the encoder subprocesses spawned
(by input path); resolver version-check probes are not encoder
subprocesses. -/
def processVideoH (env : RunEnv) (inputPath : String) :
    Settled ProcessResult × List String :=
  match findPythonCommand env.probe with
  | .error msg => (.resolve ⟨false, some msg⟩, [])
  | .ok _ => (closeOutcome (env.exitCode inputPath) (env.stderrOf inputPath), [inputPath])

/- ------------------------------------------------------------------
   Batch Queue and Orchestrator: the renderer `App` component state
   (`videos : VideoItem[]`) and its handlers.
   ------------------------------------------------------------------ -/

/-- Model of the renderer `setVideos(prev.map(v => v.id === id ? f(v) : v))`
update pattern: rewrite the job with the given id, leave every other job
unchanged. -/
def markById (videos : List VideoItem) (id : String) (f : VideoItem → VideoItem) :
    List VideoItem :=
  videos.map fun v => if v.id = id then f v else v

/-- The eligibility filter of `handleProcessAll`:
`videos.filter` keeping exactly the jobs whose status is pending or error. -/
def eligible (videos : List VideoItem) : List VideoItem :=
  videos.filter fun v => v.status == .pending || v.status == .error

/-- Literal the renderer searches for in a caught error message to decide
to stop the whole run. -/
def pythonNotFoundNeedle : String := "Python not found"

/-- The body of the `for (const video of pending)` loop of
`handleProcessAll`, iterating over the eligibility snapshot.  Per job: mark
it `processing` with progress 0; invoke `process-video`; on a fulfilled
promise mark it `completed` with progress 100 (the resolved value is never
inspected, exactly as in the source); on a rejected promise mark it
`error` with the error field of the rejection value (falling back to the
fixed text `Processing failed` when that field is absent or empty, as the
JavaScript or-default does) and stop the run if that
message contains `Python not found`, otherwise continue.  Returns the
final queue together with the input paths of all encoder subprocesses
spawned. -/
def runLoop (env : RunEnv) (videos : List VideoItem) :
    List VideoItem → List VideoItem × List String
  | [] => (videos, [])
  | job :: rest =>
    let vs1 := markById videos job.id
      fun v => { v with status := .processing, progress := 0 }
    match processVideoH env job.filepath with
    | (.resolve _, sp) =>
      let vs2 := markById vs1 job.id
        fun v => { v with status := .completed, progress := 100 }
      let r := runLoop env vs2 rest
      (r.1, sp ++ r.2)
    | (.reject res, sp) =>
      let errorMsg :=
        match res.error with
        | some s => if s = "" then "Processing failed" else s
        | none => "Processing failed"
      let vs2 := markById vs1 job.id
        fun v => { v with status := .error, errorMsg := some errorMsg }
      if listContains errorMsg.data pythonNotFoundNeedle.data then (vs2, sp)
      else
        let r := runLoop env vs2 rest
        (r.1, sp ++ r.2)

/-- The `handleProcessAll` renderer handler: snapshot the eligible jobs
once, then drive the loop over the snapshot. -/
def handleProcessAll (env : RunEnv) (videos : List VideoItem) :
    List VideoItem × List String :=
  runLoop env videos (eligible videos)

/-- The `onProcessingProgress` subscriber of the renderer: a delivered
`{ path, progress }` event sets the progress of EVERY job whose filepath
equals the path of the event; job ids play no part. -/
def applyProgress (videos : List VideoItem) (path : String) (value : Rat) :
    List VideoItem :=
  videos.map fun v => if v.filepath = path then { v with progress := value } else v

/-- The `handleRemoveVideo` handler restricted to the queue update:
`videos.filter(v => v.id !== id)`. -/
def removeVideo (videos : List VideoItem) (id : String) : List VideoItem :=
  videos.filter fun v => v.id != id

/-- C1: the claim asserts that the Progress Parser emits the same events for
every chunking of the stdout text, and in particular that feeding
`"PROGRESS: 10\nnoise\nPROGRESS: 55.5\n"` split inside `"PROGR|ESS: 10"`
yields the two events `10` and `55.5`.  The code splits each chunk on
newlines independently and keeps no cross-chunk parse state, so the split
marker line is lost: the unsplit stream yields both events, while the
split stream yields only `55.5`.  This theorem evaluates the embedded
handler at exactly the input named by the claim and exhibits the
divergence. -/
theorem progressParser_chunk_split_loses_event :
    streamEvents ["PROGRESS: 10\nnoise\nPROGRESS: 55.5\n"]
        = [some 10, some (mkRat 111 2)] ∧
      streamEvents ["PROGR", "ESS: 10\nnoise\nPROGRESS: 55.5\n"]
        = [some (mkRat 111 2)] ∧
      streamEvents ["PROGR", "ESS: 10\nnoise\nPROGRESS: 55.5\n"]
        ≠ streamEvents ["PROGRESS: 10\nnoise\nPROGRESS: 55.5\n"] := by
  refine ⟨by decide, by decide, by decide⟩

/-- Model of JavaScript `String.prototype.trim`: leading and trailing
whitespace characters removed. -/
def jsTrim (cs : List Char) : List Char :=
  ((cs.dropWhile Char.isWhitespace).reverse.dropWhile Char.isWhitespace).reverse

/-- The `handleApplyBulkCaption` renderer handler: a blank bulk caption is
a no-op on the whole queue; otherwise every job whose own caption trims to
the empty string receives the bulk caption and every other job is left
unchanged. -/
def handleApplyBulkCaption (bulkCaption : String) (videos : List VideoItem) :
    List VideoItem :=
  if jsTrim bulkCaption.data = [] then videos
  else
    videos.map fun v =>
      if jsTrim v.caption.data = [] then { v with caption := bulkCaption } else v

/-- Model of the filename derivation in `handleAddVideos`: the path is
split at every slash or backslash, the last segment is taken, and a
missing or empty segment falls back to the empty string. -/
def jsFilename (filepath : String) : String :=
  String.mk ((splitOnPred (fun c => c = '/' || c = '\\') filepath.data).getLast?.getD [])

/-- The job literal built by `handleAddVideos` for one selected path.  The
id argument stands for the value of the expression interpolating
`Date.now()` and `Math.random()` at creation time. -/
def mkVideo (id filepath : String) : VideoItem :=
  { id := id
    filepath := filepath
    filename := jsFilename filepath
    caption := ""
    status := .pending
    duration := 0
    width := 0
    height := 0
    progress := 0
    errorMsg := none }

/-- The jobs created by one `handleAddVideos` call for the selected files,
drawing ids from the supply `gen` starting at draw index `start`.  `gen`
models the successive values produced by the id expression; the source
gives no mechanism forcing distinct draws to be distinct strings. -/
def mkJobs (gen : Nat → String) (start : Nat) : List String → List VideoItem
  | [] => []
  | f :: fs => mkVideo (gen start) f :: mkJobs gen (start + 1) fs

/-- One `handleAddVideos` call: append the new jobs for the selected files
to the queue (`setVideos(prev => [...prev, ...newVideos])`), returning the
new queue and the number of id draws consumed so far. -/
def enqueue (gen : Nat → String) (videos : List VideoItem) (start : Nat)
    (files : List String) : List VideoItem × Nat :=
  (videos ++ mkJobs gen start files, start + files.length)

/-- A sequence of `handleAddVideos` calls starting from the empty queue,
threading the id draw counter across calls. -/
def enqueueRuns (gen : Nat → String) (calls : List (List String)) : List VideoItem :=
  (calls.foldl (fun st files => enqueue gen st.1 st.2 files) ([], 0)).1

/-- C5: the Command Resolver probes candidates strictly in list order and
resolves with the first whose version check exits 0, probing no later
candidate: for candidates `[a, b, c]` where `a` fails and `b` exits 0, the
result is `b` and only `a` and `b` were probed.  When every candidate
fails to launch or exits nonzero, the resolver rejects with the fixed
message, which carries the install hint `install Python`. -/
theorem resolver_first_success (probe : String → ProbeOutcome) (a b c : String)
    (ha : probe a ≠ .exited 0) (hb : probe b = .exited 0) :
    tryNextT probe [a, b, c] = (.ok b, [a, b]) ∧
      (∀ cmds : List String, (∀ cmd ∈ cmds, probe cmd ≠ .exited 0) →
        tryNextT probe cmds = (.error pythonNotFoundMsg, cmds)) ∧
      listContains pythonNotFoundMsg.data "install Python".data = true := by
  refine ⟨?_, ?_, by decide⟩
  · simp [tryNextT, ha, hb]
  · intro cmds h
    induction cmds with
    | nil => simp [tryNextT]
    | cons cmd rest ih =>
      have h1 : probe cmd ≠ .exited 0 := h cmd (by simp)
      have h2 := ih fun x hx => h x (by simp [hx])
      simp [tryNextT, h1, h2]

/-- Witness for `resolver_first_success` at a concrete probe behaviour. -/
theorem resolver_first_success_witness :
    tryNextT (fun s => if s = "b" then .exited 0 else .launchError) ["a", "b", "c"]
      = (.ok "b", ["a", "b"]) :=
  (resolver_first_success (fun s => if s = "b" then .exited 0 else .launchError)
    "a" "b" "c" (by decide) (by decide)).1

/-- C3: the close handler of an encoder invocation resolves with success on
exit code 0 regardless of the stderr content, and rejects on a nonzero
exit code with the captured stderr text when that text is non-empty, and
otherwise with a synthesized message that carries the exit code as a
suffix. -/
theorem closeOutcome_rule (code : Int) (stderr : String) (h : code ≠ 0) :
    closeOutcome (some 0) stderr = .resolve ⟨true, none⟩ ∧
      (stderr ≠ "" → closeOutcome (some code) stderr = .reject ⟨false, some stderr⟩) ∧
      ∃ msg, closeOutcome (some code) "" = .reject ⟨false, some msg⟩ ∧
        msg = "Process exited with code " ++ toString code := by
  have hc : ¬ (some code = some 0) := by simpa using h
  refine ⟨by simp [closeOutcome], fun hs => ?_, ?_⟩
  · simp [closeOutcome, hc, hs]
  · exact ⟨_, by simp [closeOutcome, hc, codeText], rfl⟩

/-- Witness for `closeOutcome_rule` at exit code 1 with stderr
`bad codec`. -/
theorem closeOutcome_rule_witness :
    closeOutcome (some 1) "bad codec" = .reject ⟨false, some "bad codec"⟩ :=
  (closeOutcome_rule 1 "bad codec" (by decide)).2.1 (by decide)

/-- C2: the claim says that when command resolution fails every eligible
job ends in `error` with the resolver message and the run aborts with no
encoder subprocess spawned.  In the code the `process-video` handler
RETURNS `{ success: false, error }` on resolver failure, so the renderer
promise is fulfilled, the `catch` branch carrying the `Python not found`
abort never executes, and the loop marks every job `completed` with
progress 100 and runs the whole snapshot.  This theorem evaluates the run
on two pending jobs under a probe for which every candidate fails to
launch: both jobs end `completed` with no error message, and no encoder
subprocess is spawned. -/
theorem resolverFailure_marks_jobs_completed :
    handleProcessAll
        ⟨fun _ => .launchError, fun _ => some 0, fun _ => ""⟩
        [⟨"1", "a.mp4", "a.mp4", "", .pending, 0, 0, 0, 0, none⟩,
         ⟨"2", "b.mp4", "b.mp4", "", .pending, 0, 0, 0, 0, none⟩]
      = ([⟨"1", "a.mp4", "a.mp4", "", .completed, 0, 0, 0, 100, none⟩,
          ⟨"2", "b.mp4", "b.mp4", "", .completed, 0, 0, 0, 100, none⟩], []) := by
  decide

/-- C4: in a run over three eligible jobs with pairwise distinct ids where
the encoder of job 2 exits with code 1 and stderr `bad codec` while jobs 1
and 3 exit 0, the final queue is `completed, error("bad codec"),
completed`: the per-job failure marks only job 2 `error` with the failure
message and the run continues, spawning the encoder for job 3 as well. -/
theorem run_continues_after_encode_failure (env : RunEnv) (v1 v2 v3 : VideoItem)
    (cmd : String)
    (h12 : v1.id ≠ v2.id) (h13 : v1.id ≠ v3.id) (h23 : v2.id ≠ v3.id)
    (e1 : v1.status = .pending ∨ v1.status = .error)
    (e2 : v2.status = .pending ∨ v2.status = .error)
    (e3 : v3.status = .pending ∨ v3.status = .error)
    (hr : findPythonCommand env.probe = .ok cmd)
    (hc1 : env.exitCode v1.filepath = some 0)
    (hc2 : env.exitCode v2.filepath = some 1)
    (hc3 : env.exitCode v3.filepath = some 0)
    (hs2 : env.stderrOf v2.filepath = "bad codec") :
    handleProcessAll env [v1, v2, v3]
      = ([{ v1 with status := .completed, progress := 100 },
          { v2 with status := .error, progress := 0, errorMsg := some "bad codec" },
          { v3 with status := .completed, progress := 100 }],
         [v1.filepath, v2.filepath, v3.filepath]) := by
  have he1 : (v1.status == Status.pending || v1.status == Status.error) = true := by
    rcases e1 with h | h <;> simp [h]
  have he2 : (v2.status == Status.pending || v2.status == Status.error) = true := by
    rcases e2 with h | h <;> simp [h]
  have he3 : (v3.status == Status.pending || v3.status == Status.error) = true := by
    rcases e3 with h | h <;> simp [h]
  have hnc : listContains ("bad codec").data pythonNotFoundNeedle.data = false := by
    decide
  simp [handleProcessAll, eligible, he1, he2, he3, runLoop, processVideoH, hr,
    closeOutcome, hc1, hc2, hc3, hs2, markById, h12, h13, h23, h12.symm, h13.symm,
    h23.symm, hnc]

/-- Witness for `run_continues_after_encode_failure` at a concrete
environment and queue. -/
theorem run_continues_after_encode_failure_witness :
    handleProcessAll
        ⟨fun _ => .exited 0,
         fun p => if p = "b.mp4" then some 1 else some 0,
         fun p => if p = "b.mp4" then "bad codec" else ""⟩
        [⟨"1", "a.mp4", "a.mp4", "", .pending, 0, 0, 0, 0, none⟩,
         ⟨"2", "b.mp4", "b.mp4", "", .pending, 0, 0, 0, 0, none⟩,
         ⟨"3", "c.mp4", "c.mp4", "", .pending, 0, 0, 0, 0, none⟩]
      = ([⟨"1", "a.mp4", "a.mp4", "", .completed, 0, 0, 0, 100, none⟩,
          ⟨"2", "b.mp4", "b.mp4", "", .error, 0, 0, 0, 0, some "bad codec"⟩,
          ⟨"3", "c.mp4", "c.mp4", "", .completed, 0, 0, 0, 100, none⟩],
         ["a.mp4", "b.mp4", "c.mp4"]) :=
  run_continues_after_encode_failure
    ⟨fun _ => .exited 0,
     fun p => if p = "b.mp4" then some 1 else some 0,
     fun p => if p = "b.mp4" then "bad codec" else ""⟩
    ⟨"1", "a.mp4", "a.mp4", "", .pending, 0, 0, 0, 0, none⟩
    ⟨"2", "b.mp4", "b.mp4", "", .pending, 0, 0, 0, 0, none⟩
    ⟨"3", "c.mp4", "c.mp4", "", .pending, 0, 0, 0, 0, none⟩
    "python" (by decide) (by decide) (by decide) (Or.inl rfl) (Or.inl rfl)
    (Or.inl rfl) rfl (by decide) (by decide) (by decide) (by decide)

/-- C6: `FillEmptyCaptions` is a no-op on the whole queue when the bulk
text is blank; otherwise, pointwise over the queue, a job whose caption is
blank gets exactly its caption replaced by the bulk text, and a job with
an existing caption is returned unchanged.  The `Forall₂` relation also
forces the result to have the same length as the input queue. -/
theorem fillEmptyCaptions_rule (x : String) (videos : List VideoItem) :
    (jsTrim x.data = [] → handleApplyBulkCaption x videos = videos) ∧
      List.Forall₂ (fun v w =>
          (jsTrim x.data ≠ [] → jsTrim v.caption.data = [] →
            w = { v with caption := x }) ∧
          (jsTrim x.data ≠ [] → jsTrim v.caption.data ≠ [] → w = v) ∧
          (jsTrim x.data = [] → w = v))
        videos (handleApplyBulkCaption x videos) := by
  constructor
  · intro hx
    simp [handleApplyBulkCaption, hx]
  · by_cases hx : jsTrim x.data = []
    · rw [handleApplyBulkCaption, if_pos hx]
      rw [List.forall₂_same]
      intro v _
      exact ⟨fun h => absurd hx h, fun h => absurd hx h, fun _ => rfl⟩
    · rw [handleApplyBulkCaption, if_neg hx]
      rw [List.forall₂_map_right_iff, List.forall₂_same]
      intro v _
      refine ⟨fun _ hv => ?_, fun _ hv => ?_, fun h => absurd h hx⟩
      · rw [if_pos hv]
      · rw [if_neg hv]

/-- Witness for `fillEmptyCaptions_rule`: on a two-job queue the bulk text
`X` fills only the blank caption, and a blank bulk text is a no-op. -/
theorem fillEmptyCaptions_rule_witness :
    handleApplyBulkCaption "  "
        [⟨"1", "a.mp4", "a.mp4", "", .pending, 0, 0, 0, 0, none⟩]
      = [⟨"1", "a.mp4", "a.mp4", "", .pending, 0, 0, 0, 0, none⟩] :=
  (fillEmptyCaptions_rule "  "
    [⟨"1", "a.mp4", "a.mp4", "", .pending, 0, 0, 0, 0, none⟩]).1 (by decide)

/-- C7: the eligibility filter of the orchestrator returns exactly the
jobs whose status is `pending` or `error`, as an order-preserving sublist
of the queue; it is stable (filtering an already filtered queue changes
nothing, and as a pure function of the queue repeated calls without
intervening mutation agree definitionally); and re-running after a run
that left one job `error` and one `completed` selects only the `error`
job, which a successful run marks `completed`, while the `completed` job
is returned untouched. -/
theorem eligible_rule (videos : List VideoItem) (v1 v2 : VideoItem) (env : RunEnv)
    (cmd : String) (h1 : v1.status = .error) (h2 : v2.status = .completed)
    (hid : v1.id ≠ v2.id) (hr : findPythonCommand env.probe = .ok cmd)
    (hc : env.exitCode v1.filepath = some 0) :
    (eligible videos).Sublist videos ∧
      (∀ v ∈ eligible videos, v.status = .pending ∨ v.status = .error) ∧
      (∀ v ∈ videos, (v.status = .pending ∨ v.status = .error) → v ∈ eligible videos) ∧
      eligible (eligible videos) = eligible videos ∧
      eligible [v1, v2] = [v1] ∧
      handleProcessAll env [v1, v2]
        = ([{ v1 with status := .completed, progress := 100 }, v2], [v1.filepath]) := by
  refine ⟨List.filter_sublist videos, ?_, ?_, ?_, ?_, ?_⟩
  · intro v hv
    simp [eligible, List.mem_filter] at hv
    exact hv.2
  · intro v hv hst
    simp [eligible, List.mem_filter]
    exact ⟨hv, hst⟩
  · simp [eligible, List.filter_filter]
  · simp [eligible, h1, h2]
  · simp [handleProcessAll, eligible, h1, h2, runLoop, processVideoH, hr,
      closeOutcome, hc, markById, hid, hid.symm]

/-- Witness for `eligible_rule` at a concrete queue of one `error` and one
`completed` job. -/
theorem eligible_rule_witness :
    handleProcessAll
        ⟨fun _ => .exited 0, fun _ => some 0, fun _ => ""⟩
        [⟨"1", "a.mp4", "a.mp4", "", .error, 0, 0, 0, 0, some "old"⟩,
         ⟨"2", "b.mp4", "b.mp4", "", .completed, 0, 0, 0, 100, none⟩]
      = ([⟨"1", "a.mp4", "a.mp4", "", .completed, 0, 0, 0, 100, some "old"⟩,
          ⟨"2", "b.mp4", "b.mp4", "", .completed, 0, 0, 0, 100, none⟩],
         ["a.mp4"]) :=
  (eligible_rule []
    ⟨"1", "a.mp4", "a.mp4", "", .error, 0, 0, 0, 0, some "old"⟩
    ⟨"2", "b.mp4", "b.mp4", "", .completed, 0, 0, 0, 100, none⟩
    ⟨fun _ => .exited 0, fun _ => some 0, fun _ => ""⟩
    "python" rfl rfl (by decide) rfl (by decide)).2.2.2.2.2

/-- The jobs built for a concatenation of file lists are the concatenation
of the jobs built for each list, with the id draw counter advanced. -/
theorem mkJobs_append (gen : Nat → String) (l1 l2 : List String) :
    ∀ s, mkJobs gen s (l1 ++ l2) = mkJobs gen s l1 ++ mkJobs gen (s + l1.length) l2 := by
  induction l1 with
  | nil => intro s; simp [mkJobs]
  | cons f fs ih =>
    intro s
    have harith : s + 1 + fs.length = s + (fs.length + 1) := by omega
    simp [mkJobs, ih (s + 1), harith]

/-- Closed form of a sequence of `handleAddVideos` calls: the fold appends
the jobs of the concatenated path lists, drawing ids in order. -/
theorem enqueueRuns_closed_form (gen : Nat → String) (calls : List (List String)) :
    ∀ videos start,
      calls.foldl (fun st files => enqueue gen st.1 st.2 files) (videos, start)
        = (videos ++ mkJobs gen start calls.flatten, start + calls.flatten.length) := by
  induction calls with
  | nil => intro videos start; simp [mkJobs]
  | cons files rest ih =>
    intro videos start
    rw [List.foldl_cons]
    show List.foldl _ (videos ++ mkJobs gen start files, start + files.length) rest = _
    rw [ih]
    simp [mkJobs_append, List.append_assoc, Nat.add_assoc]

/-- Every job built by `mkJobs` carries the id of the draw at its own
position. -/
theorem mkJobs_id_mem (gen : Nat → String) (l : List String) :
    ∀ s v, v ∈ mkJobs gen s l → ∃ i, s ≤ i ∧ v.id = gen i := by
  induction l with
  | nil => intro s v hv; simp [mkJobs] at hv
  | cons f fs ih =>
    intro s v hv
    simp [mkJobs] at hv
    rcases hv with h | h
    · exact ⟨s, le_refl s, by simp [h, mkVideo]⟩
    · rcases ih (s + 1) v h with ⟨i, hi, hid⟩
      exact ⟨i, by omega, hid⟩

/-- With an injective id supply, the ids drawn by `mkJobs` are pairwise
distinct. -/
theorem mkJobs_ids_nodup (gen : Nat → String) (hg : Function.Injective gen)
    (l : List String) : ∀ s, ((mkJobs gen s l).map fun v => v.id).Nodup := by
  induction l with
  | nil => intro s; simp [mkJobs]
  | cons f fs ih =>
    intro s
    refine List.Nodup.cons ?_ (ih (s + 1))
    intro hmem
    simp [List.mem_map] at hmem
    rcases hmem with ⟨v, hv, hid⟩
    rcases mkJobs_id_mem gen fs (s + 1) v hv with ⟨i, hi, hvi⟩
    have : i = s := hg (by rw [← hvi, hid, mkVideo])
    omega

/-- The filepaths of the jobs built by `mkJobs` are the given paths in
order. -/
theorem mkJobs_map_filepath (gen : Nat → String) (l : List String) :
    ∀ s, (mkJobs gen s l).map (fun v => v.filepath) = l := by
  induction l with
  | nil => intro s; simp [mkJobs]
  | cons f fs ih => intro s; simp [mkJobs, mkVideo, ih]

/-- Every job built by `mkJobs` is created `pending` with an empty caption
and progress 0. -/
theorem mkJobs_fields (gen : Nat → String) (l : List String) :
    ∀ s v, v ∈ mkJobs gen s l →
      v.status = .pending ∧ v.caption = "" ∧ v.progress = 0 := by
  induction l with
  | nil => intro s v hv; simp [mkJobs] at hv
  | cons f fs ih =>
    intro s v hv
    simp [mkJobs] at hv
    rcases hv with h | h
    · simp [h, mkVideo]
    · exact ih (s + 1) v h

/-- C8 counterexample: the claim asserts that ids are pairwise distinct
after every sequence of `Enqueue` calls, but the source derives each id
from `Date.now()` and `Math.random()`, which guarantees no distinctness:
under the possible behaviour in which both draws happen in the same
millisecond and `Math.random()` repeats a value, one `handleAddVideos`
call over two paths creates two jobs with the same id. -/
theorem enqueue_id_collision :
    (enqueueRuns (fun _ => "1700000000000-0.5") [["a.mp4", "b.mp4"]]).map
        (fun v => v.id)
      = ["1700000000000-0.5", "1700000000000-0.5"] ∧
      ¬ ((enqueueRuns (fun _ => "1700000000000-0.5") [["a.mp4", "b.mp4"]]).map
          (fun v => v.id)).Nodup := by
  exact ⟨by decide, by decide⟩

/-- C8 amended: for every sequence of `Enqueue` calls the resulting queue
is, in order, one job per path of the concatenated call arguments (the
filepaths of the queue are exactly the concatenated arguments); every
created job has status `pending`, empty caption and progress 0; and the
ids are pairwise distinct at all times PROVIDED the id supply never
repeats a value — a guarantee the `Date.now()`/`Math.random()` id
expression of the source does not itself provide. -/
theorem enqueue_rule (gen : Nat → String) (calls : List (List String))
    (hg : Function.Injective gen) :
    enqueueRuns gen calls = mkJobs gen 0 calls.flatten ∧
      (enqueueRuns gen calls).map (fun v => v.filepath) = calls.flatten ∧
      (∀ v ∈ enqueueRuns gen calls,
        v.status = .pending ∧ v.caption = "" ∧ v.progress = 0) ∧
      ((enqueueRuns gen calls).map fun v => v.id).Nodup := by
  have hform : enqueueRuns gen calls = mkJobs gen 0 calls.flatten := by
    simp [enqueueRuns, enqueueRuns_closed_form]
  refine ⟨hform, ?_, ?_, ?_⟩
  · rw [hform, mkJobs_map_filepath]
  · intro v hv
    rw [hform] at hv
    exact mkJobs_fields gen calls.flatten 0 v hv
  · rw [hform]
    exact mkJobs_ids_nodup gen hg calls.flatten 0

/-- Witness for `enqueue_rule` with an injective id supply. -/
theorem enqueue_rule_witness :
    (enqueueRuns (fun n => String.mk (List.replicate n 'a'))
          [["a.mp4"], ["b.mp4", "a.mp4"]]).map (fun v => v.filepath)
      = ["a.mp4", "b.mp4", "a.mp4"] :=
  (enqueue_rule (fun n => String.mk (List.replicate n 'a'))
    [["a.mp4"], ["b.mp4", "a.mp4"]]
    (fun m n h => by
      have h2 := congrArg (fun s => s.data.length) h
      simpa using h2)).2.1

/-- C9 counterexample: the claim asserts that every progress or status
update targeting a removed job leaves the queue unchanged.  Progress
events are routed by filepath, and duplicate paths are permitted in the
queue: after removing the first of two jobs for `v.mp4`, a progress event
produced by the encoder of the removed job still rewrites the surviving
duplicate, so the queue changes. -/
theorem removed_job_progress_changes_queue :
    applyProgress
        (removeVideo
          [⟨"1", "v.mp4", "v.mp4", "", .processing, 0, 0, 0, 0, none⟩,
           ⟨"2", "v.mp4", "v.mp4", "", .pending, 0, 0, 0, 0, none⟩] "1")
        "v.mp4" 42
      ≠ removeVideo
          [⟨"1", "v.mp4", "v.mp4", "", .processing, 0, 0, 0, 0, none⟩,
           ⟨"2", "v.mp4", "v.mp4", "", .pending, 0, 0, 0, 0, none⟩] "1" := by
  decide

/-- C9 amended: an update addressed to an id or filepath that no job in
the queue carries is a silent no-op — in particular a status update for a
id of a removed job, and a progress event for the filepath of a removed
job when
no surviving job shares that filepath, leave the queue unchanged; both
operations are total functions, so no update can crash.  A progress event
whose filepath is still carried by a surviving duplicate job does rewrite
that duplicate, since routing is by filepath. -/
theorem missing_target_update_noop (videos : List VideoItem) (jobId path : String)
    (value : Rat) (f : VideoItem → VideoItem)
    (hid : ∀ v ∈ videos, v.id ≠ jobId) (hpath : ∀ v ∈ videos, v.filepath ≠ path) :
    markById videos jobId f = videos ∧ applyProgress videos path value = videos := by
  constructor
  · rw [markById]
    conv_rhs => rw [← List.map_id videos]
    apply List.map_congr_left
    intro v hv
    rw [if_neg (hid v hv)]
    rfl
  · rw [applyProgress]
    conv_rhs => rw [← List.map_id videos]
    apply List.map_congr_left
    intro v hv
    rw [if_neg (hpath v hv)]
    rfl

/-- Witness for `missing_target_update_noop`: after the only job with id
`1` is removed, a status update for id `1` and a progress event for its
path are both no-ops on the remaining queue. -/
theorem missing_target_update_noop_witness :
    markById
        (removeVideo
          [⟨"1", "a.mp4", "a.mp4", "", .processing, 0, 0, 0, 0, none⟩,
           ⟨"2", "b.mp4", "b.mp4", "", .pending, 0, 0, 0, 0, none⟩] "1")
        "1" (fun v => { v with status := .completed, progress := 100 })
      = removeVideo
          [⟨"1", "a.mp4", "a.mp4", "", .processing, 0, 0, 0, 0, none⟩,
           ⟨"2", "b.mp4", "b.mp4", "", .pending, 0, 0, 0, 0, none⟩] "1" :=
  (missing_target_update_noop
    (removeVideo
      [⟨"1", "a.mp4", "a.mp4", "", .processing, 0, 0, 0, 0, none⟩,
       ⟨"2", "b.mp4", "b.mp4", "", .pending, 0, 0, 0, 0, none⟩] "1")
    "1" "a.mp4" 42 (fun v => { v with status := .completed, progress := 100 })
    (by decide) (by decide)).1

/-- C10: a delivered progress event is routed by source filepath and not
by job id: pointwise over the queue, every job whose filepath equals the
path of the event — whatever its status or id, duplicate entries included
— has exactly its progress field set to the value of the event, and every
other job is unchanged; and renaming all job ids commutes with delivering
the event, so the id plays no role in routing. -/
theorem progress_routed_by_path (videos : List VideoItem) (path : String)
    (value : Rat) (rename : String → String) :
    List.Forall₂ (fun v w =>
        (v.filepath = path → w = { v with progress := value }) ∧
        (v.filepath ≠ path → w = v))
      videos (applyProgress videos path value) ∧
      applyProgress (videos.map fun v => { v with id := rename v.id }) path value
        = (applyProgress videos path value).map fun v => { v with id := rename v.id } := by
  constructor
  · rw [applyProgress, List.forall₂_map_right_iff, List.forall₂_same]
    intro v _
    refine ⟨fun hv => ?_, fun hv => ?_⟩
    · rw [if_pos hv]
    · rw [if_neg hv]
  · rw [applyProgress, applyProgress, List.map_map, List.map_map]
    apply List.map_congr_left
    intro v _
    by_cases hv : v.filepath = path
    · simp [hv]
    · simp [hv]

/-- Witness for `progress_routed_by_path`: an event for `v.mp4` with value
42 updates both the completed and the pending duplicate for that file and
leaves the other job alone, whatever the ids are. -/
theorem progress_routed_by_path_witness :
    applyProgress
        (([⟨"1", "v.mp4", "v.mp4", "", .completed, 0, 0, 0, 100, none⟩,
           ⟨"2", "v.mp4", "v.mp4", "", .pending, 0, 0, 0, 0, none⟩] :
            List VideoItem).map
          fun v => { v with id := "x" ++ v.id })
        "v.mp4" 42
      = (applyProgress
          [⟨"1", "v.mp4", "v.mp4", "", .completed, 0, 0, 0, 100, none⟩,
           ⟨"2", "v.mp4", "v.mp4", "", .pending, 0, 0, 0, 0, none⟩]
          "v.mp4" 42).map fun v => { v with id := "x" ++ v.id } :=
  (progress_routed_by_path
    [⟨"1", "v.mp4", "v.mp4", "", .completed, 0, 0, 0, 100, none⟩,
     ⟨"2", "v.mp4", "v.mp4", "", .pending, 0, 0, 0, 0, none⟩]
    "v.mp4" 42 (fun s => "x" ++ s)).2
